import Mathlib

set_option maxRecDepth 10000

/-!
# Verification of the `putter` TiddlyWiki PUT server

A shallow embedding of `putter.go`: a single-document HTTP server with
MD5-derived ETags, conditional (`If-Match`) PUT, timestamped archiving and a
gzip-compressed sibling artifact.  Bytes are modelled as `Nat` values below
256, files as explicit state components, and the fallible filesystem calls of
the Go code as explicit outcome inputs to each operation.
-/

namespace Putter

/-- A byte sequence (each entry intended to be `< 256`). -/
abbrev Bytes := List Nat

/-! ## MD5 (`crypto/md5`), as used by `handlePut` and `newServer`

A direct embedding of the MD5 algorithm on byte lists, with 32-bit words
represented as `Nat` reduced modulo `2 ^ 32`. -/

/-- The per-round left-rotation amounts of MD5. -/
def md5S : List Nat :=
  [7, 12, 17, 22, 7, 12, 17, 22, 7, 12, 17, 22, 7, 12, 17, 22,
   5, 9, 14, 20, 5, 9, 14, 20, 5, 9, 14, 20, 5, 9, 14, 20,
   4, 11, 16, 23, 4, 11, 16, 23, 4, 11, 16, 23, 4, 11, 16, 23,
   6, 10, 15, 21, 6, 10, 15, 21, 6, 10, 15, 21, 6, 10, 15, 21]

/-- The 64 sine-derived additive constants of MD5. -/
def md5K : List Nat :=
  [0xd76aa478, 0xe8c7b756, 0x242070db, 0xc1bdceee,
   0xf57c0faf, 0x4787c62a, 0xa8304613, 0xfd469501,
   0x698098d8, 0x8b44f7af, 0xffff5bb1, 0x895cd7be,
   0x6b901122, 0xfd987193, 0xa679438e, 0x49b40821,
   0xf61e2562, 0xc040b340, 0x265e5a51, 0xe9b6c7aa,
   0xd62f105d, 0x02441453, 0xd8a1e681, 0xe7d3fbc8,
   0x21e1cde6, 0xc33707d6, 0xf4d50d87, 0x455a14ed,
   0xa9e3e905, 0xfcefa3f8, 0x676f02d9, 0x8d2a4c8a,
   0xfffa3942, 0x8771f681, 0x6d9d6122, 0xfde5380c,
   0xa4beea44, 0x4bdecfa9, 0xf6bb4b60, 0xbebfbc70,
   0x289b7ec6, 0xeaa127fa, 0xd4ef3085, 0x04881d05,
   0xd9d4d039, 0xe6db99e5, 0x1fa27cf8, 0xc4ac5665,
   0xf4292244, 0x432aff97, 0xab9423a7, 0xfc93a039,
   0x655b59c3, 0x8f0ccc92, 0xffeff47d, 0x85845dd1,
   0x6fa87e4f, 0xfe2ce6e0, 0xa3014314, 0x4e0811a1,
   0xf7537e82, 0xbd3af235, 0x2ad7d2bb, 0xeb86d391]

/-- Bitwise complement within 32 bits (valid for inputs below `2 ^ 32`). -/
def bnot32 (x : Nat) : Nat := 0xffffffff - x

/-- Left rotation of a 32-bit word by `s` places. -/
def rotl32 (x s : Nat) : Nat := (x * 2 ^ s) % 2 ^ 32 + x / 2 ^ (32 - s)

/-- The little-endian bytes of `n`, `c` bytes long. -/
def leBytes (n c : Nat) : Bytes := (List.range c).map fun i => n / 2 ^ (8 * i) % 256

/-- One of the 64 MD5 operations: `m` gives the sixteen message words of the
current chunk, `st = (a, b, c, d)` the running state, `i` the round index. -/
def md5Round (m : Nat → Nat) (st : Nat × Nat × Nat × Nat) (i : Nat) :
    Nat × Nat × Nat × Nat :=
  let a := st.1
  let b := st.2.1
  let c := st.2.2.1
  let d := st.2.2.2
  let f :=
    if i < 16 then (b &&& c) ||| (bnot32 b &&& d)
    else if i < 32 then (d &&& b) ||| (bnot32 d &&& c)
    else if i < 48 then (b ^^^ c) ^^^ d
    else c ^^^ (b ||| bnot32 d)
  let g :=
    if i < 16 then i
    else if i < 32 then (5 * i + 1) % 16
    else if i < 48 then (3 * i + 5) % 16
    else 7 * i % 16
  let tmp := (a + f + md5K.getD i 0 + m g) % 2 ^ 32
  (d, (b + rotl32 tmp (md5S.getD i 0)) % 2 ^ 32, b, c)

/-- Process one 64-byte chunk, feeding its sixteen little-endian words through
the 64 rounds and adding the result to the incoming state. -/
def md5Chunk (st : Nat × Nat × Nat × Nat) (chunk : Bytes) :
    Nat × Nat × Nat × Nat :=
  let m := fun j => chunk.getD (4 * j) 0 + chunk.getD (4 * j + 1) 0 * 0x100 +
    chunk.getD (4 * j + 2) 0 * 0x10000 + chunk.getD (4 * j + 3) 0 * 0x1000000
  let r := (List.range 64).foldl (md5Round m) st
  ((st.1 + r.1) % 2 ^ 32, (st.2.1 + r.2.1) % 2 ^ 32,
   (st.2.2.1 + r.2.2.1) % 2 ^ 32, (st.2.2.2 + r.2.2.2) % 2 ^ 32)

/-- MD5 padding: a `0x80` byte, zeros to 56 mod 64, then the bit length as a
64-bit little-endian quantity. -/
def md5Pad (msg : Bytes) : Bytes :=
  msg ++ [0x80] ++ List.replicate ((119 - msg.length % 64) % 64) 0 ++
    leBytes (8 * msg.length % 2 ^ 64) 8

/-- The MD5 digest (16 bytes) of a byte sequence. -/
def md5 (msg : Bytes) : Bytes :=
  let p := md5Pad msg
  let r := (List.range (p.length / 64)).foldl
    (fun st i => md5Chunk st ((p.drop (64 * i)).take 64))
    (0x67452301, 0xefcdab89, 0x98badcfe, 0x10325476)
  leBytes r.1 4 ++ leBytes r.2.1 4 ++ leBytes r.2.2.1 4 ++ leBytes r.2.2.2 4

/-! ## Hex encoding (`encoding/hex.EncodeToString`) -/

/-- The lowercase hexadecimal digit for a value below 16. -/
def hexDigit (n : Nat) : Char :=
  if n < 10 then Char.ofNat (48 + n) else Char.ofNat (87 + n)

/-- `hex.EncodeToString`: each byte as two lowercase hexadecimal digits. -/
def hexEncode (bs : Bytes) : String :=
  String.mk (bs.foldr (fun b acc => hexDigit (b / 16) :: hexDigit (b % 16) :: acc) [])

/-! ## `strings.Contains`, used on the `Accept-Encoding` header -/

/-- `strings.Contains s sub`: whether `sub` occurs as a substring of `s`. -/
def strContains (s sub : String) : Bool :=
  (List.range (s.toList.length + 1)).any fun i => sub.toList.isPrefixOf (s.toList.drop i)

/-! ## Data model

The server manages three file locations (`putter.go`): the live wiki file at
`fileName`, the compressed sibling at `fileName + ".gz"`, and the archive
directory `archiveDirName` of timestamp-named snapshot files.  We model their
contents directly: `live` is the byte content of the wiki file, `gz` the
content of the sibling (if present), and `archive` an association list from
formatted-timestamp filename to content, in creation order.  The gzip encoding
at a fixed level is a deterministic injective code, so a gzip file is
represented by the payload it decodes to (`FileData.gzipped`); a file holding
a partially written, undecodable stream is `FileData.corrupt`. -/

/-- The content of a served or stored file: plain bytes, a gzip stream that
decodes to `payload`, or an interrupted (undecodable) write. -/
inductive FileData where
  | plain (content : Bytes)
  | gzipped (payload : Bytes)
  | corrupt (junk : Bytes)
deriving DecidableEq

/-- The `Server` struct of `putter.go` (lines 107-115): the current ETag plus
the immutable configuration.  The `sync.RWMutex` serialises handlers; it is
modelled by the handlers being atomic steps. -/
structure Server where
  etag : String
  fileName : String
  archiveDirName : String
  archiveFormat : String
  isArchive : Bool
  isCompress : Bool
deriving DecidableEq

/-- The whole observable system state: the `Server` struct plus the contents
of the three managed file locations. -/
structure SysState where
  server : Server
  /-- bytes of the live wiki file at `server.fileName` -/
  live : Bytes
  /-- content of the compressed sibling at `server.fileName + ".gz"`, if present -/
  gz : Option FileData
  /-- archive directory: formatted-timestamp filename to file content, in creation order -/
  archive : List (String × Bytes)
deriving DecidableEq

/-- An HTTP response as observed by the caller: status code, the `ETag` and
`Content-Encoding` headers if set, and the body if one is served. -/
structure Response where
  status : Nat
  etagHeader : Option String
  contentEncoding : Option String
  body : Option FileData
deriving DecidableEq

/-- A response carrying only a status code. -/
def resp (status : Nat) : Response := ⟨status, none, none, none⟩

/-- Outcome of a fallible copy-to-file operation: success; failure before the
destination is touched (e.g. the source or destination cannot be opened); or
failure midway, leaving the destination created but holding `junk`. -/
inductive IoResult where
  | ok
  | failNone
  | failJunk (junk : Bytes)
deriving DecidableEq

/-- One PUT request together with the outcomes of the fallible filesystem
operations `handlePut` performs: `body` is the uploaded bytes, `ifMatch` the
`If-Match` header ("" when absent, as `http.Header.Get` returns), `tstr` the
current UTC time formatted with the archive pattern, and the rest the fates
of the temp-file staging, the archive copy, the rename, and the compression. -/
structure PutInput where
  body : Bytes
  ifMatch : String
  tstr : String
  tempOk : Bool
  copyOk : Bool
  closeOk : Bool
  archIo : IoResult
  renameOk : Bool
  compIo : IoResult
deriving DecidableEq

/-- Insert a binding into an association list, replacing in place if the key
is already present (`os.Create` truncates an existing file) and appending
otherwise (a new file in the directory). -/
def insertReplace (l : List (String × Bytes)) (k : String) (v : Bytes) :
    List (String × Bytes) :=
  if l.any (fun p => p.1 == k) then l.map fun p => if p.1 == k then (k, v) else p
  else l ++ [(k, v)]

/-! ## The operations of `putter.go` -/

/-- `setEtagFromHash` (putter.go:349-351): the ETag is the digest in
lowercase hex, wrapped in double quotes. -/
def setEtagFromHash (s : Server) (digest : Bytes) : Server :=
  { s with etag := "\"" ++ hexEncode digest ++ "\"" }

/-- `archiveWiki` (putter.go:322-346): when archiving is enabled, copy the
live wiki to a file named by the formatted timestamp `tstr` in the archive
directory.  Returns the new archive contents and whether the call succeeded.
A failure before the destination is created leaves the archive unchanged; a
failure during the copy leaves a created file with partial content. -/
def archiveWiki (s : Server) (live : Bytes) (archive : List (String × Bytes))
    (tstr : String) (io : IoResult) : List (String × Bytes) × Bool :=
  if !s.isArchive then (archive, true)
  else
    match io with
    | .ok => (insertReplace archive tstr live, true)
    | .failNone => (archive, false)
    | .failJunk junk => (insertReplace archive tstr junk, false)

/-- `compressWiki` (putter.go:289-319): when compression is enabled, rewrite
the sibling `fileName + ".gz"` with the gzip encoding (best compression) of
the live wiki.  A failure to open source or create destination leaves the
sibling unchanged; a failure during the copy leaves it truncated/corrupt. -/
def compressWiki (s : Server) (live : Bytes) (gz : Option FileData)
    (io : IoResult) : Option FileData × Bool :=
  if !s.isCompress then (gz, true)
  else
    match io with
    | .ok => (some (.gzipped live), true)
    | .failNone => (gz, false)
    | .failJunk junk => (some (.corrupt junk), false)

/-- `newServer` (putter.go:118-149) on a successful startup where the wiki
file holds `doc`: builds the `Server` struct — note putter.go:127 assigns the
`isCompress` field from the `isArchive` parameter — computes the initial ETag
by hashing the file, and writes the compressed sibling (startup aborts the
process on failure, so only the successful outcome yields a server).  The
archive directory is taken to start empty (a fresh start). -/
def newServer (fileName archiveDirName archiveFormat : String)
    (isArchive isCompress : Bool) (doc : Bytes) : SysState :=
  let s : Server :=
    { etag := "", fileName, archiveDirName, archiveFormat, isArchive,
      isCompress := isArchive }
  let s := setEtagFromHash s (md5 doc)
  let gz := (compressWiki s doc none .ok).1
  { server := s, live := doc, gz := gz, archive := [] }

/-- `handleHead` (putter.go:174-179): report the current ETag, no body. -/
def handleHead (st : SysState) : Response :=
  ⟨200, some st.server.etag, none, none⟩

/-- The constant `encodingGzip` of putter.go (line 31). -/
def encodingGzip : String := "gzip"

/-- `handleGet` (putter.go:190-219): if compression is enabled and the
`Accept-Encoding` header contains "gzip", set `Content-Encoding: gzip` and
serve the compressed sibling, else serve the live wiki; if the chosen file
cannot be opened (`openOk` is the fate of the `os.Open`/`Stat` pair), respond
500 — the `Content-Encoding` header was already set by then, but the `ETag`
header was not. -/
def handleGet (st : SysState) (acceptEncoding : String) (openOk : Bool) :
    Response :=
  let useGz := st.server.isCompress && strContains acceptEncoding encodingGzip
  let ce := if useGz then some encodingGzip else none
  if useGz then
    match st.gz, openOk with
    | some d, true => ⟨200, some st.server.etag, ce, some d⟩
    | _, _ => ⟨500, none, ce, none⟩
  else if openOk then ⟨200, some st.server.etag, none, some (.plain st.live)⟩
  else ⟨500, none, none, none⟩

/-- `handlePut` (putter.go:223-286): stage the body to a temp file while
hashing it; under the exclusive lock, compare the `If-Match` header (if
non-empty) with the current ETag; then archive the old wiki, rename the
staged file over it, recompress, and only then commit the new ETag and
report it.  Every failure exits with the response of its stage and without
committing a new ETag. -/
def handlePut (st : SysState) (inp : PutInput) : SysState × Response :=
  if !inp.tempOk then (st, resp 500)
  else if !inp.copyOk then (st, resp 500)
  else if !inp.closeOk then (st, resp 500)
  else if inp.ifMatch != "" && inp.ifMatch != st.server.etag then (st, resp 412)
  else
    let ar := archiveWiki st.server st.live st.archive inp.tstr inp.archIo
    if !ar.2 then ({ st with archive := ar.1 }, resp 500)
    else if !inp.renameOk then ({ st with archive := ar.1 }, resp 500)
    else
      let cz := compressWiki st.server inp.body st.gz inp.compIo
      if !cz.2 then
        ({ st with archive := ar.1, live := inp.body, gz := cz.1 }, resp 500)
      else
        let s := setEtagFromHash st.server (md5 inp.body)
        (⟨s, inp.body, cz.1, ar.1⟩, ⟨200, some s.etag, none, none⟩)

/-! ## Traces -/

/-- States reachable from a successful startup by any sequence of PUT
requests (GET, HEAD and OPTIONS do not change the state). -/
inductive Reachable : SysState → Prop where
  | init (fn ad af : String) (a c : Bool) (d : Bytes) :
      Reachable (newServer fn ad af a c d)
  | put (st : SysState) (inp : PutInput) : Reachable st →
      Reachable (handlePut st inp).1

/-- A PUT step in which compression fails after the staged file was already
renamed over the live wiki (putter.go:274-279): the one step that replaces
the document without committing a matching ETag. -/
def compressFailureStep (st : SysState) (inp : PutInput) : Prop :=
  inp.tempOk = true ∧ inp.copyOk = true ∧ inp.closeOk = true ∧
  (inp.ifMatch = "" ∨ inp.ifMatch = st.server.etag) ∧
  (st.server.isArchive = true → inp.archIo = .ok) ∧ inp.renameOk = true ∧
  st.server.isCompress = true ∧ inp.compIo ≠ .ok

instance (st : SysState) (inp : PutInput) : Decidable (compressFailureStep st inp) := by
  unfold compressFailureStep; infer_instance

/-- Reachability along PUT steps none of which fails at the compression
stage after a successful promotion. -/
inductive CleanReachable : SysState → Prop where
  | init (fn ad af : String) (a c : Bool) (d : Bytes) :
      CleanReachable (newServer fn ad af a c d)
  | put (st : SysState) (inp : PutInput) : CleanReachable st →
      ¬ compressFailureStep st inp → CleanReachable (handlePut st inp).1

/-- Run a list of PUT requests in order. -/
def runPuts (st : SysState) (l : List PutInput) : SysState :=
  l.foldl (fun s i => (handlePut s i).1) st

/-- Whether every PUT in the list returns 200 when run in order from `st`. -/
def allSucceed : SysState → List PutInput → Bool
  | _, [] => true
  | st, i :: is => (handlePut st i).2.status == 200 && allSucceed (handlePut st i).1 is

/-- The archive produced by a run of successful PUTs with fresh timestamps
starting from live document `d`: one entry per PUT, named by its timestamp,
holding the document that was live just before it. -/
def expectedArchive : Bytes → List PutInput → List (String × Bytes)
  | _, [] => []
  | d, i :: is => (i.tstr, d) :: expectedArchive i.body is

/-- The staging phase (temp file, body copy, temp close) succeeded. -/
def stagingOk (inp : PutInput) : Prop :=
  inp.tempOk = true ∧ inp.copyOk = true ∧ inp.closeOk = true

instance (inp : PutInput) : Decidable (stagingOk inp) := by
  unfold stagingOk; infer_instance

/-- The conditional-write check passes: header absent (empty) or equal to the
current ETag. -/
def tokenOk (st : SysState) (inp : PutInput) : Prop :=
  inp.ifMatch = "" ∨ inp.ifMatch = st.server.etag

instance (st : SysState) (inp : PutInput) : Decidable (tokenOk st inp) := by
  unfold tokenOk; infer_instance

/-- The archive step does not fail (vacuously when archiving is disabled). -/
def archiveOk (st : SysState) (inp : PutInput) : Prop :=
  st.server.isArchive = true → inp.archIo = .ok

instance (st : SysState) (inp : PutInput) : Decidable (archiveOk st inp) := by
  unfold archiveOk; infer_instance

/-- The compression step does not fail (vacuously when disabled). -/
def compressOk (st : SysState) (inp : PutInput) : Prop :=
  st.server.isCompress = true → inp.compIo = .ok

instance (st : SysState) (inp : PutInput) : Decidable (compressOk st inp) := by
  unfold compressOk; infer_instance

/-- A PUT step passed staging, validation, archiving and the rename, so its
control reached the compression call (putter.go:274). -/
def reachedCompress (st : SysState) (inp : PutInput) : Prop :=
  stagingOk inp ∧ tokenOk st inp ∧ archiveOk st inp ∧ inp.renameOk = true

instance (st : SysState) (inp : PutInput) : Decidable (reachedCompress st inp) := by
  unfold reachedCompress; infer_instance

/-- The ETag held by the server matches the bytes of the live wiki file. -/
def etagInv (st : SysState) : Prop :=
  st.server.etag = "\"" ++ hexEncode (md5 st.live) ++ "\""

instance (st : SysState) : Decidable (etagInv st) := by
  unfold etagInv; infer_instance

/-- The compressed sibling (when compression is enabled) decodes to the
bytes of the live wiki file. -/
def gzInv (st : SysState) : Prop :=
  st.server.isCompress = true → st.gz = some (.gzipped st.live)

instance (st : SysState) : Decidable (gzInv st) := by
  unfold gzInv; infer_instance

/-! ## Branch characterizations of `handlePut` -/

theorem archiveWiki_succ_iff (s : Server) (live : Bytes)
    (a : List (String × Bytes)) (t : String) (io : IoResult) :
    (archiveWiki s live a t io).2 = true ↔ (s.isArchive = true → io = .ok) := by
  cases hA : s.isArchive <;> cases io <;> simp [archiveWiki, hA]

theorem compressWiki_succ_iff (s : Server) (live : Bytes) (gz : Option FileData)
    (io : IoResult) :
    (compressWiki s live gz io).2 = true ↔ (s.isCompress = true → io = .ok) := by
  cases hC : s.isCompress <;> cases io <;> simp [compressWiki, hC]

theorem archiveWiki_fst_of_ok (s : Server) (live : Bytes)
    (a : List (String × Bytes)) (t : String) (io : IoResult)
    (h : s.isArchive = true → io = .ok) :
    (archiveWiki s live a t io).1 =
      if s.isArchive = true then insertReplace a t live else a := by
  cases hA : s.isArchive
  · simp [archiveWiki, hA]
  · simp [archiveWiki, hA, h hA]

theorem compressWiki_fst_of_ok (s : Server) (live : Bytes) (gz : Option FileData)
    (io : IoResult) (h : s.isCompress = true → io = .ok) :
    (compressWiki s live gz io).1 =
      if s.isCompress = true then some (.gzipped live) else gz := by
  cases hC : s.isCompress
  · simp [compressWiki, hC]
  · simp [compressWiki, hC, h hC]

theorem token_cond_false (st : SysState) (inp : PutInput) (ht : tokenOk st inp) :
    (inp.ifMatch != "" && inp.ifMatch != st.server.etag) = false := by
  rcases ht with h | h <;> simp [h]

theorem handlePut_staging_fail (st : SysState) (inp : PutInput)
    (h : ¬ stagingOk inp) : handlePut st inp = (st, resp 500) := by
  unfold stagingOk at h
  cases htemp : inp.tempOk
  · simp [handlePut, htemp]
  · cases hcopy : inp.copyOk
    · simp [handlePut, htemp, hcopy]
    · cases hclose : inp.closeOk
      · simp [handlePut, htemp, hcopy, hclose]
      · exact absurd ⟨htemp, hcopy, hclose⟩ h

theorem handlePut_conflict (st : SysState) (inp : PutInput)
    (hs : stagingOk inp) (h1 : inp.ifMatch ≠ "")
    (h2 : inp.ifMatch ≠ st.server.etag) :
    handlePut st inp = (st, resp 412) := by
  obtain ⟨ht, hc, hl⟩ := hs
  simp [handlePut, ht, hc, hl, h1, h2]

theorem handlePut_archive_fail (st : SysState) (inp : PutInput)
    (hs : stagingOk inp) (ht : tokenOk st inp)
    (hA : st.server.isArchive = true) (hio : inp.archIo ≠ .ok) :
    handlePut st inp =
      ({ st with
          archive := (archiveWiki st.server st.live st.archive inp.tstr inp.archIo).1 },
        resp 500) := by
  obtain ⟨h1, h2, h3⟩ := hs
  have hsnd : (archiveWiki st.server st.live st.archive inp.tstr inp.archIo).2 = false := by
    rw [← Bool.not_eq_true, archiveWiki_succ_iff]
    intro h; exact hio (h hA)
  simp [handlePut, h1, h2, h3, token_cond_false st inp ht, hsnd]

theorem handlePut_rename_fail (st : SysState) (inp : PutInput)
    (hs : stagingOk inp) (ht : tokenOk st inp) (ha : archiveOk st inp)
    (hr : inp.renameOk = false) :
    handlePut st inp =
      ({ st with
          archive := (archiveWiki st.server st.live st.archive inp.tstr inp.archIo).1 },
        resp 500) := by
  obtain ⟨h1, h2, h3⟩ := hs
  have hsnd : (archiveWiki st.server st.live st.archive inp.tstr inp.archIo).2 = true :=
    (archiveWiki_succ_iff _ _ _ _ _).2 ha
  simp [handlePut, h1, h2, h3, token_cond_false st inp ht, hsnd, hr]

theorem handlePut_compress_fail (st : SysState) (inp : PutInput)
    (hs : stagingOk inp) (ht : tokenOk st inp) (ha : archiveOk st inp)
    (hr : inp.renameOk = true) (hC : st.server.isCompress = true)
    (hio : inp.compIo ≠ .ok) :
    handlePut st inp =
      ({ st with
          archive := (archiveWiki st.server st.live st.archive inp.tstr inp.archIo).1,
          live := inp.body,
          gz := (compressWiki st.server inp.body st.gz inp.compIo).1 },
        resp 500) := by
  obtain ⟨h1, h2, h3⟩ := hs
  have hsnd : (archiveWiki st.server st.live st.archive inp.tstr inp.archIo).2 = true :=
    (archiveWiki_succ_iff _ _ _ _ _).2 ha
  have hcz : (compressWiki st.server inp.body st.gz inp.compIo).2 = false := by
    rw [← Bool.not_eq_true, compressWiki_succ_iff]
    intro h; exact hio (h hC)
  simp [handlePut, h1, h2, h3, token_cond_false st inp ht, hsnd, hr, hcz]

theorem handlePut_success (st : SysState) (inp : PutInput)
    (hs : stagingOk inp) (ht : tokenOk st inp) (ha : archiveOk st inp)
    (hr : inp.renameOk = true) (hc : compressOk st inp) :
    handlePut st inp =
      (⟨setEtagFromHash st.server (md5 inp.body), inp.body,
        (compressWiki st.server inp.body st.gz inp.compIo).1,
        (archiveWiki st.server st.live st.archive inp.tstr inp.archIo).1⟩,
       ⟨200, some (setEtagFromHash st.server (md5 inp.body)).etag, none, none⟩) := by
  obtain ⟨h1, h2, h3⟩ := hs
  have hsnd : (archiveWiki st.server st.live st.archive inp.tstr inp.archIo).2 = true :=
    (archiveWiki_succ_iff _ _ _ _ _).2 ha
  have hcz : (compressWiki st.server inp.body st.gz inp.compIo).2 = true :=
    (compressWiki_succ_iff _ _ _ _).2 hc
  simp [handlePut, h1, h2, h3, token_cond_false st inp ht, hsnd, hr, hcz]

/-- Inversion: a 200 response means every stage passed. -/
theorem handlePut_200_inv (st : SysState) (inp : PutInput)
    (h : (handlePut st inp).2.status = 200) :
    stagingOk inp ∧ tokenOk st inp ∧ archiveOk st inp ∧
      inp.renameOk = true ∧ compressOk st inp := by
  by_cases hs : stagingOk inp
  · by_cases ht : tokenOk st inp
    · by_cases ha : archiveOk st inp
      · cases hr : inp.renameOk
        · rw [handlePut_rename_fail st inp hs ht ha hr] at h; simp [resp] at h
        · by_cases hc : compressOk st inp
          · exact ⟨hs, ht, ha, rfl, hc⟩
          · unfold compressOk at hc
            push_neg at hc
            obtain ⟨hC, hio⟩ := hc
            rw [handlePut_compress_fail st inp hs ht ha hr hC hio] at h
            simp [resp] at h
      · unfold archiveOk at ha
        push_neg at ha
        obtain ⟨hA, hio⟩ := ha
        rw [handlePut_archive_fail st inp hs ht hA hio] at h
        simp [resp] at h
    · unfold tokenOk at ht
      push_neg at ht
      rw [handlePut_conflict st inp hs ht.1 ht.2] at h
      simp [resp] at h
  · rw [handlePut_staging_fail st inp hs] at h
    simp [resp] at h

/-! ## The fingerprint / compressed-variant invariant -/

/-- Along traces with no compression failure after a successful promotion,
both the ETag and the compressed sibling always match the live document. -/
theorem cleanReachable_inv (st : SysState) (h : CleanReachable st) :
    etagInv st ∧ gzInv st := by
  induction h with
  | init fn ad af a c d =>
      constructor
      · simp [etagInv, newServer, setEtagFromHash]
      · intro hC
        simp only [newServer] at hC ⊢
        simp [compressWiki, hC]
  | put st inp hR hclean ih =>
      by_cases hs : stagingOk inp
      · by_cases ht : tokenOk st inp
        · by_cases ha : archiveOk st inp
          · cases hr : inp.renameOk
            · rw [handlePut_rename_fail st inp hs ht ha hr]
              exact ⟨ih.1, ih.2⟩
            · by_cases hc : compressOk st inp
              · rw [handlePut_success st inp hs ht ha hr hc]
                refine ⟨rfl, ?_⟩
                simp only [gzInv, setEtagFromHash]
                intro hC
                rw [compressWiki_fst_of_ok _ _ _ _ hc, if_pos hC]
              · unfold compressOk at hc
                push_neg at hc
                refine absurd ?_ hclean
                unfold compressFailureStep
                exact ⟨hs.1, hs.2.1, hs.2.2, ht, ha, hr, hc.1, hc.2⟩
          · unfold archiveOk at ha
            push_neg at ha
            rw [handlePut_archive_fail st inp hs ht ha.1 ha.2]
            exact ⟨ih.1, ih.2⟩
        · unfold tokenOk at ht
          push_neg at ht
          rw [handlePut_conflict st inp hs ht.1 ht.2]
          exact ⟨ih.1, ih.2⟩
      · rw [handlePut_staging_fail st inp hs]
        exact ⟨ih.1, ih.2⟩

/-! ## Hex-encoding facts -/

theorem leBytes_lt (n c : Nat) : ∀ b ∈ leBytes n c, b < 256 := by
  intro b hb
  simp only [leBytes, List.mem_map] at hb
  obtain ⟨i, _, rfl⟩ := hb
  exact Nat.mod_lt _ (by norm_num)

theorem md5_bytes_lt (msg : Bytes) : ∀ b ∈ md5 msg, b < 256 := by
  intro b hb
  unfold md5 at hb
  simp only [List.mem_append] at hb
  rcases hb with ((h | h) | h) | h <;> exact leBytes_lt _ _ _ h

theorem hexDigit_lower (n : Nat) (h : n < 16) :
    (hexDigit n).isDigit = true ∨ ('a' ≤ hexDigit n ∧ hexDigit n ≤ 'f') := by
  interval_cases n <;> simp [hexDigit]

theorem hexEncode_lower (bs : Bytes) (h : ∀ b ∈ bs, b < 256) :
    ∀ ch ∈ (hexEncode bs).toList,
      ch.isDigit = true ∨ ('a' ≤ ch ∧ ch ≤ 'f') := by
  induction bs with
  | nil => intro ch hch; simp [hexEncode] at hch
  | cons b bs ih =>
      intro ch hch
      have hb : b < 256 := h b (List.mem_cons_self b bs)
      have hch' : ch = hexDigit (b / 16) ∨ ch = hexDigit (b % 16) ∨
          ch ∈ (hexEncode bs).toList := by
        simpa [hexEncode, List.mem_cons] using hch
      rcases hch' with rfl | rfl | h1
      · exact hexDigit_lower _ (by omega)
      · exact hexDigit_lower _ (Nat.mod_lt _ (by norm_num))
      · exact ih (fun x hx => h x (List.mem_cons_of_mem b hx)) ch h1

/-! ## Archive-run facts -/

theorem insertReplace_fresh (l : List (String × Bytes)) (k : String) (v : Bytes)
    (h : ∀ p ∈ l, p.1 ≠ k) : insertReplace l k v = l ++ [(k, v)] := by
  unfold insertReplace
  rw [if_neg]
  simp only [List.any_eq_true, beq_iff_eq, not_exists, not_and]
  exact fun p hp => h p hp

theorem expectedArchive_length (d : Bytes) (l : List PutInput) :
    (expectedArchive d l).length = l.length := by
  induction l generalizing d with
  | nil => rfl
  | cons i is ih => simp [expectedArchive, ih]

/-- Running a list of PUTs that all succeed, whose formatted timestamps are
pairwise distinct and fresh relative to the existing archive, appends to the
archive exactly one snapshot per PUT, each holding the document that was live
just before that PUT. -/
theorem runPuts_archive (l : List PutInput) (st : SysState)
    (hA : st.server.isArchive = true)
    (hs : allSucceed st l = true)
    (hnd : (l.map PutInput.tstr).Nodup)
    (hdisj : ∀ p ∈ st.archive, p.1 ∉ l.map PutInput.tstr) :
    (runPuts st l).archive = st.archive ++ expectedArchive st.live l := by
  induction l generalizing st with
  | nil => simp [runPuts, expectedArchive]
  | cons i is ih =>
      simp only [allSucceed, Bool.and_eq_true, beq_iff_eq] at hs
      obtain ⟨h200, hrest⟩ := hs
      obtain ⟨hstg, htok, harch, hren, hcomp⟩ := handlePut_200_inv st i h200
      have hstep := handlePut_success st i hstg htok harch hren hcomp
      have harchfst :
          (archiveWiki st.server st.live st.archive i.tstr i.archIo).1 =
            st.archive ++ [(i.tstr, st.live)] := by
        rw [archiveWiki_fst_of_ok _ _ _ _ _ harch, if_pos hA]
        refine insertReplace_fresh _ _ _ ?_
        intro p hp
        have := hdisj p hp
        simp only [List.map_cons, List.mem_cons, not_or] at this
        exact this.1
      have hrun : runPuts st (i :: is) = runPuts (handlePut st i).1 is := rfl
      rw [hrun, ih ((handlePut st i).1)]
      · rw [hstep]
        simp only [harchfst]
        rw [hstep] at *
        simp only [expectedArchive, List.append_assoc, List.singleton_append]
      · rw [hstep]; exact hA
      · exact hrest
      · simpa using hnd.of_cons
      · rw [hstep]
        simp only [harchfst]
        intro p hp
        simp only [List.mem_append, List.mem_singleton] at hp
        rcases hp with hp | hp
        · intro hmem
          exact hdisj p hp (by simp [List.mem_cons]; right; simpa using hmem)
        · subst hp
          simp only [List.map_cons, List.nodup_cons] at hnd
          simpa using hnd.1

/-! ## Claims -/

/-- C2 (amended): a PUT supplying a non-empty conditional token differing
from the current Fingerprint performs no mutation whatsoever — live document,
Fingerprint, archive and compressed variant are all unchanged — and, provided
the staging phase succeeds, it returns the conflict outcome 412.  (As
literally stated the claim fails: a staging failure preempts validation and
returns 500, see the counterexample.) -/
theorem c2_conflicting_put (st : SysState) (inp : PutInput)
    (h1 : inp.ifMatch ≠ "") (h2 : inp.ifMatch ≠ st.server.etag) :
    (handlePut st inp).1 = st ∧
    (stagingOk inp → (handlePut st inp).2.status = 412) := by
  by_cases hs : stagingOk inp
  · rw [handlePut_conflict st inp hs h1 h2]
    exact ⟨rfl, fun _ => rfl⟩
  · rw [handlePut_staging_fail st inp hs]
    exact ⟨rfl, fun h => absurd h hs⟩

/-- Witness for C2: a concrete mismatching PUT leaves the state unchanged
and yields 412. -/
theorem c2_witness :
    (handlePut ⟨⟨"\"bb\"", "w", "old", "f", true, true⟩, [2], none, []⟩
        ⟨[3], "y", "t2", true, true, true, .ok, true, .ok⟩).1 =
      ⟨⟨"\"bb\"", "w", "old", "f", true, true⟩, [2], none, []⟩ ∧
    (stagingOk ⟨[3], "y", "t2", true, true, true, .ok, true, .ok⟩ →
      (handlePut ⟨⟨"\"bb\"", "w", "old", "f", true, true⟩, [2], none, []⟩
        ⟨[3], "y", "t2", true, true, true, .ok, true, .ok⟩).2.status = 412) :=
  c2_conflicting_put _ _ (by decide) (by decide)

/-- Counterexample to C2 as stated: a PUT with a non-empty mismatching token
whose staging fails (here the temp-file creation) answers 500, not 412, since
putter.go:225-248 exits before the If-Match comparison at line 253. -/
theorem c2_counterexample :
    "x" ≠ "" ∧ "x" ≠ "\"aa\"" ∧
    (handlePut ⟨⟨"\"aa\"", "w", "old", "f", true, true⟩, [0], none, []⟩
        ⟨[1], "x", "t", false, true, true, .ok, true, .ok⟩).2.status = 500 ∧
    ¬ (handlePut ⟨⟨"\"aa\"", "w", "old", "f", true, true⟩, [0], none, []⟩
        ⟨[1], "x", "t", false, true, true, .ok, true, .ok⟩).2.status = 412 := by
  decide

/-- C3 (code bug): putter.go:127 initialises the `isCompress` field from the
`isArchive` parameter, so the compression toggle passed to `newServer` is
ignored: with archiving disabled and compression requested, the server's
compression flag is false, no compressed variant exists after startup, and a
successful PUT still produces none. -/
theorem c3_compress_flag_ignored :
    (∀ (fn ad af : String) (a c : Bool) (d : Bytes),
      (newServer fn ad af a c d).server.isCompress = a) ∧
    (newServer "w3" "o3" "f3" false true [0]).server.isCompress = false ∧
    (newServer "w3" "o3" "f3" false true [0]).gz = none ∧
    (handlePut (newServer "w3" "o3" "f3" false true [0])
        ⟨[1], "", "t3", true, true, true, .ok, true, .ok⟩).2.status = 200 ∧
    (handlePut (newServer "w3" "o3" "f3" false true [0])
        ⟨[1], "", "t3", true, true, true, .ok, true, .ok⟩).1.gz = none := by
  exact ⟨fun fn ad af a c d => rfl, rfl, by decide, by decide, by decide⟩

/-- C4: a successful PUT (staging passes, token absent or matching, no
storage failure) answers 200, commits as Fingerprint exactly the MD5 digest
of the uploaded bytes rendered as quoted hexadecimal, reports that
Fingerprint in the response `ETag` header, and the hexadecimal rendering uses
only lowercase digits. -/
theorem c4_successful_put_fingerprint (st : SysState) (inp : PutInput)
    (hs : stagingOk inp) (ht : tokenOk st inp) (ha : archiveOk st inp)
    (hr : inp.renameOk = true) (hc : compressOk st inp) :
    (handlePut st inp).2.status = 200 ∧
    (handlePut st inp).1.server.etag = "\"" ++ hexEncode (md5 inp.body) ++ "\"" ∧
    (handlePut st inp).2.etagHeader =
      some ("\"" ++ hexEncode (md5 inp.body) ++ "\"") ∧
    ∀ ch ∈ (hexEncode (md5 inp.body)).toList,
      ch.isDigit = true ∨ ('a' ≤ ch ∧ ch ≤ 'f') := by
  rw [handlePut_success st inp hs ht ha hr hc]
  exact ⟨rfl, rfl, rfl, hexEncode_lower _ (md5_bytes_lt inp.body)⟩

/-- Witness for C4 at a concrete state and upload. -/
theorem c4_witness :
    (handlePut (newServer "w4" "o4" "f4" true true [97])
        ⟨[98], "", "t4", true, true, true, .ok, true, .ok⟩).2.status = 200 ∧
    (handlePut (newServer "w4" "o4" "f4" true true [97])
        ⟨[98], "", "t4", true, true, true, .ok, true, .ok⟩).1.server.etag =
      "\"" ++ hexEncode (md5 [98]) ++ "\"" ∧
    (handlePut (newServer "w4" "o4" "f4" true true [97])
        ⟨[98], "", "t4", true, true, true, .ok, true, .ok⟩).2.etagHeader =
      some ("\"" ++ hexEncode (md5 [98]) ++ "\"") ∧
    ∀ ch ∈ (hexEncode (md5 [98])).toList,
      ch.isDigit = true ∨ ('a' ≤ ch ∧ ch ≤ 'f') :=
  c4_successful_put_fingerprint _ _ (by decide) (Or.inl rfl) (by decide) rfl
    (by decide)

/-- C6: after validation has passed, a failure of the Archiver, or of the
Compressor after a successful promotion, aborts the PUT with 500 and does not
commit a new Fingerprint: the ETag held by the server is unchanged. -/
theorem c6_late_failure_aborts (st : SysState) (inp : PutInput)
    (hs : stagingOk inp) (ht : tokenOk st inp)
    (hfail : (st.server.isArchive = true ∧ inp.archIo ≠ .ok) ∨
      (archiveOk st inp ∧ inp.renameOk = true ∧
        st.server.isCompress = true ∧ inp.compIo ≠ .ok)) :
    (handlePut st inp).2.status = 500 ∧
    (handlePut st inp).1.server.etag = st.server.etag := by
  rcases hfail with ⟨hA, hio⟩ | ⟨ha, hr, hC, hio⟩
  · rw [handlePut_archive_fail st inp hs ht hA hio]
    exact ⟨rfl, rfl⟩
  · rw [handlePut_compress_fail st inp hs ht ha hr hC hio]
    exact ⟨rfl, rfl⟩

/-- Witness for C6: a concrete archive failure aborts with 500 and keeps the
old ETag. -/
theorem c6_witness :
    (handlePut ⟨⟨"\"cc\"", "w", "o", "f", true, true⟩, [4], some (.gzipped [4]), []⟩
        ⟨[5], "", "t6", true, true, true, .failNone, true, .ok⟩).2.status = 500 ∧
    (handlePut ⟨⟨"\"cc\"", "w", "o", "f", true, true⟩, [4], some (.gzipped [4]), []⟩
        ⟨[5], "", "t6", true, true, true, .failNone, true, .ok⟩).1.server.etag =
      "\"cc\"" :=
  c6_late_failure_aborts _ _ (by decide) (Or.inl rfl) (Or.inl ⟨rfl, by decide⟩)

/-- C8: a PUT with no conditional token (empty If-Match) is accepted as an
unconditional overwrite regardless of the current Fingerprint, provided no
storage failure occurs: it answers 200 and the uploaded bytes become the live
document. -/
theorem c8_unconditional_put (st : SysState) (inp : PutInput)
    (hm : inp.ifMatch = "") (hs : stagingOk inp) (ha : archiveOk st inp)
    (hr : inp.renameOk = true) (hc : compressOk st inp) :
    (handlePut st inp).2.status = 200 ∧ (handlePut st inp).1.live = inp.body := by
  rw [handlePut_success st inp hs (Or.inl hm) ha hr hc]
  exact ⟨rfl, rfl⟩

/-- Witness for C8: a token-less PUT against an arbitrary stored ETag.  -/
theorem c8_witness :
    (handlePut ⟨⟨"\"zz\"", "w", "o", "f", false, false⟩, [6], none, []⟩
        ⟨[7], "", "t8", true, true, true, .ok, true, .ok⟩).2.status = 200 ∧
    (handlePut ⟨⟨"\"zz\"", "w", "o", "f", false, false⟩, [6], none, []⟩
        ⟨[7], "", "t8", true, true, true, .ok, true, .ok⟩).1.live = [7] :=
  c8_unconditional_put _ _ rfl (by decide) (by decide) rfl (by decide)

/-- C10 (amended): provided staging succeeds, a PUT carrying a non-empty
If-Match value is rejected with 412 exactly when that value differs, as a Go
string, from the stored quoted token — the comparison is plain string
equality (putter.go:254), so an unquoted digest, a weak validator, a list, or
"*" are all rejected.  (As literally stated the claim fails under a staging
failure, which answers 500; see the counterexample.) -/
theorem c10_exact_comparison (st : SysState) (inp : PutInput)
    (hs : stagingOk inp) (hne : inp.ifMatch ≠ "") :
    (handlePut st inp).2.status = 412 ↔ inp.ifMatch ≠ st.server.etag := by
  constructor
  · intro h412 heq
    have ht : tokenOk st inp := Or.inr heq
    by_cases ha : archiveOk st inp
    · cases hr : inp.renameOk
      · rw [handlePut_rename_fail st inp hs ht ha hr] at h412
        simp [resp] at h412
      · by_cases hc : compressOk st inp
        · rw [handlePut_success st inp hs ht ha hr hc] at h412
          simp at h412
        · unfold compressOk at hc
          push_neg at hc
          rw [handlePut_compress_fail st inp hs ht ha hr hc.1 hc.2] at h412
          simp [resp] at h412
    · unfold archiveOk at ha
      push_neg at ha
      rw [handlePut_archive_fail st inp hs ht ha.1 ha.2] at h412
      simp [resp] at h412
  · intro hne2
    rw [handlePut_conflict st inp hs hne hne2]
    rfl

/-- Witness for C10: the unquoted hex digest "ab" differs from the stored
quoted token and is rejected with 412. -/
theorem c10_witness :
    (handlePut ⟨⟨"\"ab\"", "w", "o", "f", true, true⟩, [8], none, []⟩
        ⟨[9], "ab", "t10", true, true, true, .ok, true, .ok⟩).2.status = 412 :=
  (c10_exact_comparison _ _ (by decide) (by decide)).mpr (by decide)

/-- Counterexample to C10 as stated: an If-Match of "*" (non-empty, not the
stored token) on a PUT whose body copy fails answers 500, not a conflict
outcome. -/
theorem c10_counterexample :
    "*" ≠ "" ∧ "*" ≠ "\"dd\"" ∧
    (handlePut ⟨⟨"\"dd\"", "w", "o", "f", true, true⟩, [0], none, []⟩
        ⟨[1], "*", "t", true, false, true, .ok, true, .ok⟩).2.status = 500 ∧
    ¬ (handlePut ⟨⟨"\"dd\"", "w", "o", "f", true, true⟩, [0], none, []⟩
        ⟨[1], "*", "t", true, false, true, .ok, true, .ok⟩).2.status = 412 := by
  decide

/-- C1 (amended): at every state reachable without a PUT ever failing at the
compression stage after its promotion succeeded, the Fingerprint held by the
server equals the MD5 hash of the live document's bytes, quoted-hex encoded —
so HEAD and GET report a validator matching the readable bytes.  (As
literally stated the claim fails: a compression failure after the rename
leaves the new bytes live under the old ETag; see the counterexample.) -/
theorem c1_fingerprint_invariant (st : SysState) (h : CleanReachable st) :
    st.server.etag = "\"" ++ hexEncode (md5 st.live) ++ "\"" :=
  (cleanReachable_inv st h).1

/-- Witness for C1 at the startup state. -/
theorem c1_witness :
    (newServer "w1b" "o" "f" true true [97]).server.etag =
      "\"" ++ hexEncode (md5 (newServer "w1b" "o" "f" true true [97]).live) ++ "\"" :=
  c1_fingerprint_invariant _ (CleanReachable.init "w1b" "o" "f" true true [97])

/-- Counterexample to C1 as stated: after a PUT whose compression step fails
once the staged file was renamed over the live wiki (putter.go:267-279), the
server state — observable to every subsequent HEAD/GET — holds an ETag that
is not the hash of the live bytes. -/
theorem c1_counterexample :
    ∃ st : SysState, Reachable st ∧
      st.server.etag ≠ "\"" ++ hexEncode (md5 st.live) ++ "\"" :=
  ⟨(handlePut (newServer "w1" "o1" "f1" true true [97])
      ⟨[98], "", "t1", true, true, true, .ok, true, .failNone⟩).1,
   Reachable.put _ _ (Reachable.init "w1" "o1" "f1" true true [97]),
   by decide⟩

/-- C5 (amended): with archiving enabled, after a sequence of N successful
PUTs whose formatted timestamps are pairwise distinct, the (initially empty)
archive directory holds exactly N entries, the i-th named by the i-th PUT's
timestamp and reproducing the document that was live just before that PUT.
(As literally stated the claim fails: two successful PUTs formatting to the
same timestamp make `os.Create` truncate the earlier entry, putter.go:336;
see the counterexample.) -/
theorem c5_archive_entries (fn ad af : String) (c : Bool) (d0 : Bytes)
    (l : List PutInput)
    (hs : allSucceed (newServer fn ad af true c d0) l = true)
    (hnd : (l.map PutInput.tstr).Nodup) :
    (runPuts (newServer fn ad af true c d0) l).archive = expectedArchive d0 l ∧
    (runPuts (newServer fn ad af true c d0) l).archive.length = l.length := by
  have h := runPuts_archive l (newServer fn ad af true c d0) rfl hs hnd
    (by intro p hp; simp [newServer] at hp)
  have h2 : (runPuts (newServer fn ad af true c d0) l).archive =
      expectedArchive d0 l := by
    simpa [newServer] using h
  exact ⟨h2, by rw [h2, expectedArchive_length]⟩

/-- Witness for C5: two successful PUTs with distinct timestamps leave two
snapshots, of the initial and the intermediate document respectively. -/
theorem c5_witness :
    (runPuts (newServer "w5b" "o" "f" true true [0])
      [⟨[1], "", "TA", true, true, true, .ok, true, .ok⟩,
       ⟨[2], "", "TB", true, true, true, .ok, true, .ok⟩]).archive =
      expectedArchive [0]
        [⟨[1], "", "TA", true, true, true, .ok, true, .ok⟩,
         ⟨[2], "", "TB", true, true, true, .ok, true, .ok⟩] ∧
    (runPuts (newServer "w5b" "o" "f" true true [0])
      [⟨[1], "", "TA", true, true, true, .ok, true, .ok⟩,
       ⟨[2], "", "TB", true, true, true, .ok, true, .ok⟩]).archive.length =
      ([⟨[1], "", "TA", true, true, true, .ok, true, .ok⟩,
        ⟨[2], "", "TB", true, true, true, .ok, true, .ok⟩] : List PutInput).length :=
  c5_archive_entries "w5b" "o" "f" true [0] _ (by decide) (by decide)

/-- Counterexample to C5 as stated: two successful PUTs whose timestamps
format identically leave ONE archive entry, not two — the second PUT's
`os.Create` truncates and rewrites the first PUT's snapshot, which also
refutes that archive entries are never mutated. -/
theorem c5_counterexample :
    allSucceed (newServer "w5" "o5" "f5" true true [0])
      [⟨[1], "", "T", true, true, true, .ok, true, .ok⟩,
       ⟨[2], "", "T", true, true, true, .ok, true, .ok⟩] = true ∧
    (runPuts (newServer "w5" "o5" "f5" true true [0])
      [⟨[1], "", "T", true, true, true, .ok, true, .ok⟩,
       ⟨[2], "", "T", true, true, true, .ok, true, .ok⟩]).archive =
      [("T", [1])] ∧
    (runPuts (newServer "w5" "o5" "f5" true true [0])
      [⟨[1], "", "T", true, true, true, .ok, true, .ok⟩,
       ⟨[2], "", "T", true, true, true, .ok, true, .ok⟩]).archive.length = 1 := by
  decide

/-- C7 (amended): on states reachable without a post-promotion compression
failure, a GET whose Accept-Encoding contains "gzip" (with compression
enabled) serves exactly the compressed variant of the current live document;
if the variant file cannot be opened, the request fails with 500 and serves
no body at all — there is no fallback to the uncompressed document.  (As
literally stated the claim fails on both counts; see the counterexample.) -/
theorem c7_get_compressed (st : SysState) (h : CleanReachable st)
    (ae : String) (hC : st.server.isCompress = true)
    (hacc : strContains ae encodingGzip = true) :
    handleGet st ae true =
      ⟨200, some st.server.etag, some encodingGzip, some (.gzipped st.live)⟩ ∧
    (handleGet st ae false).status = 500 ∧ (handleGet st ae false).body = none := by
  have hinv := (cleanReachable_inv st h).2 hC
  refine ⟨?_, ?_, ?_⟩ <;> simp [handleGet, hC, hacc, hinv]

/-- Witness for C7 at the startup state. -/
theorem c7_witness :
    handleGet (newServer "w7b" "o" "f" true true [3]) "gzip" true =
      ⟨200, some (newServer "w7b" "o" "f" true true [3]).server.etag,
        some encodingGzip,
        some (.gzipped (newServer "w7b" "o" "f" true true [3]).live)⟩ ∧
    (handleGet (newServer "w7b" "o" "f" true true [3]) "gzip" false).status = 500 ∧
    (handleGet (newServer "w7b" "o" "f" true true [3]) "gzip" false).body = none :=
  c7_get_compressed _ (CleanReachable.init "w7b" "o" "f" true true [3]) "gzip"
    (by decide) (by decide)

/-- Counterexample to C7 as stated: (i) when the compressed variant cannot be
opened, the code answers 500 with no body instead of falling back to the
uncompressed live document (putter.go:199-204); (ii) after a PUT whose
compression step failed post-promotion, a gzip-accepting GET serves a
compressed body that decodes to the previous document, not the current one. -/
theorem c7_counterexample :
    (∃ st : SysState, Reachable st ∧
      (handleGet st "gzip" false).status = 500 ∧
      (handleGet st "gzip" false).body = none ∧
      (handleGet st "gzip" false).body ≠ some (.plain st.live)) ∧
    (∃ st : SysState, Reachable st ∧ st.live = [6] ∧
      (handleGet st "gzip" true).status = 200 ∧
      (handleGet st "gzip" true).body = some (.gzipped [5])) := by
  constructor
  · exact ⟨newServer "w7" "o7" "f7" true true [5],
      Reachable.init "w7" "o7" "f7" true true [5], by decide, by decide, by decide⟩
  · exact ⟨(handlePut (newServer "w7" "o7" "f7" true true [5])
        ⟨[6], "", "t7", true, true, true, .ok, true, .failNone⟩).1,
      Reachable.put _ _ (Reachable.init "w7" "o7" "f7" true true [5]),
      by decide, by decide, by decide⟩

/-- C9 (amended): the compressed variant is written at startup and rewritten
from the new document by every successful PUT (when compression is enabled);
a PUT that fails before reaching the compression stage leaves it untouched,
and GET/HEAD never modify state.  (As literally stated — written only as
part of a successful PUT — the claim fails: startup creates it, and a PUT
failing during the compression copy itself corrupts it; see the
counterexample.) -/
theorem c9_variant_lifecycle (fn ad af : String) (a c : Bool) (d : Bytes)
    (st : SysState) (inp : PutInput) :
    ((newServer fn ad af a c d).gz =
      if a = true then some (.gzipped d) else none) ∧
    ((handlePut st inp).2.status = 200 →
      (handlePut st inp).1.gz =
        if st.server.isCompress = true then some (.gzipped inp.body) else st.gz) ∧
    (¬ reachedCompress st inp → (handlePut st inp).1.gz = st.gz) := by
  refine ⟨?_, ?_, ?_⟩
  · cases a <;> simp [newServer, compressWiki, setEtagFromHash]
  · intro h200
    obtain ⟨hs, ht, ha, hr, hc⟩ := handlePut_200_inv st inp h200
    rw [handlePut_success st inp hs ht ha hr hc]
    exact compressWiki_fst_of_ok _ _ _ _ hc
  · intro hnr
    by_cases hs : stagingOk inp
    · by_cases ht : tokenOk st inp
      · by_cases ha : archiveOk st inp
        · cases hr : inp.renameOk
          · rw [handlePut_rename_fail st inp hs ht ha hr]
          · refine absurd ?_ hnr
            unfold reachedCompress
            exact ⟨hs, ht, ha, hr⟩
        · unfold archiveOk at ha
          push_neg at ha
          rw [handlePut_archive_fail st inp hs ht ha.1 ha.2]
      · unfold tokenOk at ht
        push_neg at ht
        rw [handlePut_conflict st inp hs ht.1 ht.2]
    · rw [handlePut_staging_fail st inp hs]

/-- Witness for C9: a concrete successful PUT rewrites the variant to the
compressed encoding of the uploaded bytes. -/
theorem c9_witness :
    (handlePut (newServer "w9b" "o" "f" true true [8])
        ⟨[9], "", "t9b", true, true, true, .ok, true, .ok⟩).1.gz =
      some (.gzipped [9]) := by
  have h := (c9_variant_lifecycle "w9b" "o" "f" true true [8]
      (newServer "w9b" "o" "f" true true [8])
      ⟨[9], "", "t9b", true, true, true, .ok, true, .ok⟩).2.1 (by decide)
  rw [h]
  decide

/-- Counterexample to C9 as stated: the variant already exists right after
startup (newServer calls compressWiki, putter.go:143), before any PUT; and a
PUT failing during the compression copy answers 500 yet replaces the variant
with a corrupt file. -/
theorem c9_counterexample :
    (newServer "w9" "o9" "f9" true true [3]).gz = some (.gzipped [3]) ∧
    (newServer "w9" "o9" "f9" true true [3]).gz ≠ none ∧
    (handlePut (newServer "w9" "o9" "f9" true true [3])
        ⟨[4], "", "t9", true, true, true, .ok, true, .failJunk [7]⟩).2.status = 500 ∧
    (handlePut (newServer "w9" "o9" "f9" true true [3])
        ⟨[4], "", "t9", true, true, true, .ok, true, .failJunk [7]⟩).1.gz =
      some (.corrupt [7]) := by
  decide

end Putter

